import Mathlib

/-!
# docker-sleep-proxy: container discovery, batch start/stop and the activity monitor

A shallow embedding of `src/docker.go` and `src/config.go`.

* Go strings are byte sequences: `GoString` is a list of byte values, `len` is the
  list length and `s[:n]` is `sliceTo s n`, which faults when `n` exceeds the length.
  The bound 256 on a byte is not imposed, so every statement covers all Go strings.
* The Docker client is an external collaborator.  It is a parameter of the model: three
  functions over an arbitrary engine state `σ`, so that every listing and every pattern
  of start and stop failures is covered by quantifying over the client.
* Every procedure maps a `World` to an `Outcome` and the world it leaves behind.  A
  Go run-time panic (index or slice out of range) is `Outcome.fault`.
* `log.Printf` output is not recorded; the arguments of a log call are still evaluated,
  because evaluating `c.Names[0]` can fault.
* One call of a procedure is modelled as a sequential run; interleavings with other
  goroutines are outside this model.
* The process environment read by `os.Getenv` is an association list; `strconv.Atoi` and
  `strconv.ParseBool` are modelled for an `int` of 64 bits.
-/

namespace DockerSleepProxy

/-! ## Strings, errors, outcomes -/

/-- A Go string: its bytes. -/
abbrev GoString := List Nat

/-- The bytes of an ASCII literal of the source. -/
def str (s : String) : GoString := s.data.map Char.toNat

/-- The Go slice expression `s[:n]`: the first `n` bytes, out of range when `n > len(s)`. -/
def sliceTo (s : GoString) (n : Nat) : Option GoString :=
  if n ≤ s.length then some (s.take n) else none

/-- A Go `error` value, identified with its message. -/
abbrev GoError := String

deriving instance DecidableEq for Except

/-- How a call ends: it returns a value, or the goroutine panics. -/
inductive Outcome (α : Type) where
  | ret (a : α)
  | fault
  deriving DecidableEq, Repr

/-! ## Data model -/

/-- The fields of `types.Container` the program reads.  `Labels` is a Go map, kept as an
association list read by `mapIndex`. -/
structure Container where
  ID : GoString
  Names : List GoString
  State : GoString
  Labels : List (GoString × GoString)
  deriving DecidableEq, Repr

/-- Go map indexing `m[k]` on a `map[string]string`: the zero value `""` when absent. -/
def mapIndex (m : List (GoString × GoString)) (k : GoString) : GoString :=
  match m.lookup k with
  | some v => v
  | none => []

/-- `Config` of `config.go`.  Durations are nanosecond counts (`time.Duration`). -/
structure Config where
  ProxyPort : GoString
  TargetService : GoString
  TargetPort : GoString
  SleepTimeout : Int
  CheckInterval : Int
  EndpointPrefix : GoString
  AllowListMode : Bool
  DockerHost : GoString
  deriving DecidableEq, Repr

/-- The calls of the Docker client the program makes, as functions of the engine state:
`ContainerList` with `All: true` and one label filter, `ContainerStart`, and
`ContainerStop` with `StopOptions.Timeout`. -/
structure DockerClient (σ : Type) where
  ContainerList : GoString → σ → Except GoError (List Container) × σ
  ContainerStart : GoString → σ → Option GoError × σ
  ContainerStop : GoString → Option Int → σ → Option GoError × σ

/-- The two batch procedures, for the bookkeeping event `Event.call`. -/
inductive Proc where
  | startContainers
  | stopContainers
  deriving DecidableEq, Repr

/-- What a run does that is visible from outside: the engine calls it issues, and a mark
each time control enters `startContainers` or `stopContainers`. -/
inductive Event where
  | list (filter : GoString)
  | start (id : GoString)
  | stop (id : GoString) (timeout : Option Int)
  | call (p : Proc)
  deriving DecidableEq, Repr

/-- Modelled from the spec: the `SleepProxy` type is declared outside the given sources.
These are the fields `docker.go` reads and never writes: the project name, the
controller's own container id, the configuration and the Docker client. -/
structure SleepProxy (σ : Type) where
  projectName : GoString
  containerID : GoString
  config : Config
  dockerClient : DockerClient σ

/-- The mutable world of a run: the engine's state, the guarded pair
(`containersUp`, `lastActivity`) of the activity state, and the events so far, oldest
first.  `lastActivity` is an instant in nanoseconds. -/
structure World (σ : Type) where
  engine : σ
  containersUp : Bool
  lastActivity : Int
  trace : List Event

/-- Modelled from the spec: `areContainersUp` is defined outside the given sources; it is
the guarded read of `containersUp` (`IsUp`). -/
def areContainersUp {σ : Type} (w : World σ) : Bool := w.containersUp

/-- Modelled from the spec: `setContainersUp` is defined outside the given sources; it is
the guarded write of `containersUp` and touches nothing else. -/
def setContainersUp {σ : Type} (b : Bool) (w : World σ) : World σ :=
  { w with containersUp := b }

/-- Modelled from the spec: `getLastActivity` is defined outside the given sources; it is
the guarded read of `lastActivity`. -/
def getLastActivity {σ : Type} (w : World σ) : Int := w.lastActivity

/-- Append one event to the trace. -/
def emit {σ : Type} (e : Event) (w : World σ) : World σ :=
  { w with trace := w.trace ++ [e] }

/-- The ids of the start calls in a trace, in order. -/
def startCalls (t : List Event) : List GoString :=
  t.filterMap fun e => match e with
    | .start id => some id
    | _ => none

/-- The stop calls in a trace, each with its grace period, in order. -/
def stopCalls (t : List Event) : List (GoString × Option Int) :=
  t.filterMap fun e => match e with
    | .stop id timeout => some (id, timeout)
    | _ => none

/-- The procedures entered in a trace, in order. -/
def procCalls (t : List Event) : List Proc :=
  t.filterMap fun e => match e with
    | .call p => some p
    | _ => none

/-! ## `getProjectContainers` -/

/-- The label filter value built by `fmt.Sprintf("com.docker.compose.project=%s", name)`. -/
def projectFilter (projectName : GoString) : GoString :=
  str "com.docker.compose.project=" ++ projectName

/-- The condition of `docker.go:30`,
`c.ID == sp.containerID || (len(sp.containerID) >= 12 && c.ID[:12] == sp.containerID[:12])`,
evaluated left to right with short circuit. -/
def isProxyContainer (containerID : GoString) (c : Container) : Outcome Bool :=
  if c.ID = containerID then .ret true
  else if 12 ≤ containerID.length then
    match sliceTo c.ID 12, sliceTo containerID 12 with
    | some a, some b => .ret (decide (a = b))
    | _, _ => .fault
  else .ret false

/-- The loop of `docker.go:28-50` over the rest of the listing; `projectContainers` is the
slice built so far.  The two log calls index `c.Names[0]`. -/
def filterLoop (containerID : GoString) (allowListMode : Bool) :
    List Container → List Container → Outcome (List Container)
  | [], projectContainers => .ret projectContainers
  | c :: rest, projectContainers =>
    match isProxyContainer containerID c with
    | .fault => .fault
    | .ret true => filterLoop containerID allowListMode rest projectContainers
    | .ret false =>
      let labelValue := mapIndex c.Labels (str "sleep-proxy.enable")
      if allowListMode then
        if labelValue = str "true" then
          match c.Names with
          | [] => .fault
          | _ :: _ =>
            filterLoop containerID allowListMode rest (projectContainers ++ [c])
        else filterLoop containerID allowListMode rest projectContainers
      else
        if labelValue ≠ str "false" then
          filterLoop containerID allowListMode rest (projectContainers ++ [c])
        else
          match c.Names with
          | [] => .fault
          | _ :: _ => filterLoop containerID allowListMode rest projectContainers

/-- `getProjectContainers` (`docker.go:14-53`): one list query, then the filter loop.  The
value is the Go result pair, `Except.error err` standing for `(nil, err)`. -/
def getProjectContainers {σ : Type} (sp : SleepProxy σ) (w : World σ) :
    Outcome (Except GoError (List Container)) × World σ :=
  let filterArgs := projectFilter sp.projectName
  let r := sp.dockerClient.ContainerList filterArgs w.engine
  let w1 := emit (.list filterArgs) { w with engine := r.2 }
  match r.1 with
  | .error err => (.ret (.error err), w1)
  | .ok containers =>
    match filterLoop sp.containerID sp.config.AllowListMode containers [] with
    | .fault => (.fault, w1)
    | .ret projectContainers => (.ret (.ok projectContainers), w1)

/-! ## `startContainers` and `stopContainers` -/

/-- The loop of `docker.go:72-85`.  A member that is not running is named in the log
(`c.Names[0]`) and then started; the error of the start call is only logged. -/
def startLoop {σ : Type} (sp : SleepProxy σ) : List Container → World σ → Outcome Unit × World σ
  | [], w => (.ret (), w)
  | c :: rest, w =>
    if c.State ≠ str "running" then
      match c.Names with
      | [] => (.fault, w)
      | _ :: _ =>
        let r := sp.dockerClient.ContainerStart c.ID w.engine
        startLoop sp rest (emit (.start c.ID) { w with engine := r.2 })
    else startLoop sp rest w

/-- `startContainers` (`docker.go:64-88`).  The value is the returned `error`, `none` for
`nil`. -/
def startContainers {σ : Type} (sp : SleepProxy σ) (w : World σ) :
    Outcome (Option GoError) × World σ :=
  let d := getProjectContainers sp (emit (.call .startContainers) w)
  match d.1 with
  | .fault => (.fault, d.2)
  | .ret (.error err) => (.ret (some ("failed to list containers: " ++ err)), d.2)
  | .ret (.ok containers) =>
    let l := startLoop sp containers d.2
    match l.1 with
    | .fault => (.fault, l.2)
    | .ret () => (.ret none, l.2)

/-- The loop of `docker.go:99-112`, `timeout` being the local variable whose address is
passed as `StopOptions.Timeout`. -/
def stopLoop {σ : Type} (sp : SleepProxy σ) (timeout : Int) :
    List Container → World σ → Outcome Unit × World σ
  | [], w => (.ret (), w)
  | c :: rest, w =>
    if c.State = str "running" then
      match c.Names with
      | [] => (.fault, w)
      | _ :: _ =>
        let r := sp.dockerClient.ContainerStop c.ID (some timeout) w.engine
        stopLoop sp timeout rest (emit (.stop c.ID (some timeout)) { w with engine := r.2 })
    else stopLoop sp timeout rest w

/-- `stopContainers` (`docker.go:90-116`). -/
def stopContainers {σ : Type} (sp : SleepProxy σ) (w : World σ) :
    Outcome (Option GoError) × World σ :=
  let d := getProjectContainers sp (emit (.call .stopContainers) w)
  match d.1 with
  | .fault => (.fault, d.2)
  | .ret (.error err) => (.ret (some ("failed to list containers: " ++ err)), d.2)
  | .ret (.ok containers) =>
    let timeout : Int := 10
    let l := stopLoop sp timeout containers d.2
    match l.1 with
    | .fault => (.fault, l.2)
    | .ret () => (.ret none, setContainersUp false l.2)

/-! ## One cycle of `monitorActivity` -/

/-- The smallest `time.Duration`. -/
def minDuration : Int := -(2 ^ 63)

/-- The largest `time.Duration`. -/
def maxDuration : Int := 2 ^ 63 - 1

/-- One second as a `time.Duration`. -/
def second : Int := 1000000000

/-- The duration `time.Since(t)` read at the instant `now`: `now - t`, saturated to the
range of `time.Duration` as `Time.Sub` does. -/
def since (now t : Int) : Int :=
  let d := now - t
  if d < minDuration then minDuration else if maxDuration < d then maxDuration else d

/-- A value of type `time.Duration`: a signed 64-bit count of nanoseconds. -/
abbrev isDuration (d : Int) : Prop := minDuration ≤ d ∧ d ≤ maxDuration

/-- The loop of `docker.go:138-143`: the first member that is not running makes the answer
`false` and ends the loop. -/
def allRunningLoop : List Container → Bool → Bool
  | [], allRunning => allRunning
  | c :: rest, allRunning =>
    if c.State ≠ str "running" then false else allRunningLoop rest allRunning

/-- The body of the `case <-ticker.C` branch of `monitorActivity` (`docker.go:129-167`): one
monitor cycle.  `now` is the clock reading taken by `time.Since` at line 156. -/
def monitorCycle {σ : Type} (sp : SleepProxy σ) (now : Int) (w : World σ) :
    Outcome Unit × World σ :=
  let d := getProjectContainers sp w
  match d.1 with
  | .fault => (.fault, d.2)
  | .ret (.error _) => (.ret (), d.2)
  | .ret (.ok containers) =>
    let allRunning := allRunningLoop containers (decide (containers.length > 0))
    let w2 :=
      if allRunning && !areContainersUp d.2 then setContainersUp true d.2
      else if !allRunning && areContainersUp d.2 then setContainersUp false d.2
      else d.2
    if areContainersUp w2 then
      let timeSinceActivity := since now (getLastActivity w2)
      if timeSinceActivity > sp.config.SleepTimeout then
        let s := stopContainers sp w2
        match s.1 with
        | .fault => (.fault, s.2)
        | .ret (some _) => (.ret (), s.2)
        | .ret none => (.ret (), setContainersUp false s.2)
      else (.ret (), w2)
    else (.ret (), w2)

/-! ## The membership policy in the words of the specification -/

/-- The value of the enable label of a container, `""` when the label is absent. -/
def enableLabel (c : Container) : GoString := mapIndex c.Labels (str "sleep-proxy.enable")

/-- Self-exclusion as specified: the id equals the controller's own id, or the first 12
bytes of the two ids are equal. -/
def isController (containerID : GoString) (c : Container) : Bool :=
  decide (c.ID = containerID) || decide (c.ID.take 12 = containerID.take 12)

/-- The decision table: allow-list mode admits the label `"true"` only, deny-list mode
admits every label but `"false"`. -/
def policyAdmits (allowListMode : Bool) (c : Container) : Bool :=
  if allowListMode then decide (enableLabel c = str "true")
  else decide (enableLabel c ≠ str "false")

/-- A member under control: not the controller, and admitted by the mode's policy. -/
def isMember (containerID : GoString) (allowListMode : Bool) (c : Container) : Bool :=
  !isController containerID c && policyAdmits allowListMode c

/-! ## A concrete project used to exercise the model -/

/-- A client whose list query answers from a script, one entry per query (a failure once
the script is used up), and whose start and stop calls fail on the listed ids.  The engine
state is the number of list queries answered. -/
def scriptedClient (lists : List (Except GoError (List Container)))
    (startFails stopFails : List GoString) : DockerClient Nat where
  ContainerList := fun _ n => (lists.getD n (.error "engine unreachable"), n + 1)
  ContainerStart := fun id n => (if id ∈ startFails then some "start failed" else none, n)
  ContainerStop := fun id _ n => (if id ∈ stopFails then some "stop failed" else none, n)

/-- The controller's own short id, 12 bytes. -/
def ownID : GoString := str "c0ffee000000"

/-- The controller's own container, listed under its full id. -/
def proxyBox : Container :=
  { ID := str "c0ffee000000aaaa", Names := [str "/proxy"], State := str "running", Labels := [] }

/-- A running member with no enable label. -/
def webBox : Container :=
  { ID := str "11111111111111aa", Names := [str "/web"], State := str "running", Labels := [] }

/-- A stopped member labelled `"true"`. -/
def dbBox : Container :=
  { ID := str "22222222222222bb", Names := [str "/db"], State := str "exited",
    Labels := [(str "sleep-proxy.enable", str "true")] }

/-- A stopped container labelled `"false"`. -/
def cacheBox : Container :=
  { ID := str "33333333333333cc", Names := [str "/cache"], State := str "exited",
    Labels := [(str "sleep-proxy.enable", str "false")] }

/-- A stopped member with no enable label. -/
def mailBox : Container :=
  { ID := str "44444444444444dd", Names := [str "/mail"], State := str "exited", Labels := [] }

/-- The listing of the project "shop". -/
def shopListing : List Container := [proxyBox, webBox, dbBox, cacheBox, mailBox]

/-- A configuration with a sleep timeout of 60 seconds. -/
def shopConfig (allowListMode : Bool) : Config :=
  { ProxyPort := str "8000", TargetService := str "web", TargetPort := str "80",
    SleepTimeout := 60 * second, CheckInterval := 5 * second,
    EndpointPrefix := str "sleep-proxy", AllowListMode := allowListMode, DockerHost := [] }

/-- The controller of project "shop" over a scripted client. -/
def shopProxy (allowListMode : Bool) (lists : List (Except GoError (List Container)))
    (startFails stopFails : List GoString) : SleepProxy Nat :=
  { projectName := str "shop", containerID := ownID, config := shopConfig allowListMode,
    dockerClient := scriptedClient lists startFails stopFails }

/-- The instant of the last activity that makes the idle time at instant `0` exceed the
sleep timeout of `shopConfig` by one second. -/
def longAgo : Int := 0 - ((shopConfig false).SleepTimeout + second)

/-- A world with a fresh engine and an empty trace. -/
def freshWorld (containersUp : Bool) (lastActivity : Int) : World Nat :=
  { engine := 0, containersUp := containersUp, lastActivity := lastActivity, trace := [] }

/-! ## The ticker of `monitorActivity` -/

/-- The period of the ticker that drives the monitor loop, the argument of
`time.NewTicker(10 * time.Second)` at `docker.go:119`.  The controller is a parameter
because the ticker is created inside one of its methods. -/
def monitorTickerPeriod {σ : Type} (_sp : SleepProxy σ) : Int := 10 * second

/-! ## `config.go` -/

/-- The process environment: the variables that are set, each with its value. -/
abbrev Env := List (GoString × GoString)

/-- `os.Getenv`: the value of the variable, `""` when the variable is not set. -/
def Getenv (env : Env) (key : GoString) : GoString :=
  match env.lookup key with
  | some v => v
  | none => []

/-- Wrap-around of an integer into the range of `int64`. -/
def wrapInt64 (x : Int) : Int := (x + 2 ^ 63) % 2 ^ 64 - 2 ^ 63

/-- The digits of a decimal numeral, most significant first, read onto `acc`; `none` when
a byte is not a decimal digit. -/
def parseDigits : List Nat → Nat → Option Nat
  | [], acc => some acc
  | b :: rest, acc =>
    if 48 ≤ b ∧ b ≤ 57 then parseDigits rest (acc * 10 + (b - 48)) else none

/-- `strconv.Atoi` with a 64-bit `int`: an optional sign and at least one decimal digit,
the value within the range of `int64`; `none` stands for a non-nil error. -/
def Atoi (s : GoString) : Option Int :=
  let negative := s.head? = some 45
  let digits := if s.head? = some 45 ∨ s.head? = some 43 then s.tail else s
  if digits = [] then none
  else
    match parseDigits digits 0 with
    | none => none
    | some n =>
      let v : Int := if negative then -(n : Int) else (n : Int)
      if minDuration ≤ v ∧ v ≤ maxDuration then some v else none

/-- `strconv.ParseBool`: the spellings it accepts; `none` stands for a non-nil error. -/
def ParseBool (s : GoString) : Option Bool :=
  if s ∈ [str "1", str "t", str "T", str "TRUE", str "true", str "True"] then some true
  else if s ∈ [str "0", str "f", str "F", str "FALSE", str "false", str "False"] then some false
  else none

/-- `getEnv` (`config.go:20-25`). -/
def getEnv (env : Env) (key defaultValue : GoString) : GoString :=
  let value := Getenv env key
  if value ≠ [] then value else defaultValue

/-- `getEnvInt` (`config.go:27-34`). -/
def getEnvInt (env : Env) (key : GoString) (defaultValue : Int) : Int :=
  let value := Getenv env key
  if value ≠ [] then
    match Atoi value with
    | some intVal => intVal
    | none => defaultValue
  else defaultValue

/-- `getEnvBool` (`config.go:36-43`). -/
def getEnvBool (env : Env) (key : GoString) (defaultValue : Bool) : Bool :=
  let value := Getenv env key
  if value ≠ [] then
    match ParseBool value with
    | some boolVal => boolVal
    | none => defaultValue
  else defaultValue

/-- `LoadConfig` (`config.go:45-69`).  Each of the two calls of `panic` is a fault; the
products `time.Duration(n) * time.Second` wrap around as `int64` products do. -/
def LoadConfig (env : Env) : Outcome Config :=
  let targetService := Getenv env (str "TARGET_SERVICE")
  if targetService = [] then .fault
  else
    let targetPort := Getenv env (str "TARGET_PORT")
    if targetPort = [] then .fault
    else
      let sleepTimeoutSec := getEnvInt env (str "SLEEP_TIMEOUT") 86400
      let checkIntervalSec := getEnvInt env (str "CHECK_INTERVAL") 5
      .ret
        { ProxyPort := getEnv env (str "PROXY_PORT") (str "8000")
          TargetService := targetService
          TargetPort := targetPort
          SleepTimeout := wrapInt64 (sleepTimeoutSec * second)
          CheckInterval := wrapInt64 (checkIntervalSec * second)
          EndpointPrefix := getEnv env (str "ENDPOINT_PREFIX") (str "sleep-proxy")
          AllowListMode := getEnvBool env (str "ALLOW_LIST_MODE") false
          DockerHost := getEnv env (str "DOCKER_HOST") [] }

/-! ## Further concrete inputs -/

/-- A container the engine lists without a name, labelled `"false"`. -/
def namelessBox : Container :=
  { ID := str "55555555555555ee", Names := [], State := str "running",
    Labels := [(str "sleep-proxy.enable", str "false")] }

/-- A container the engine lists without a name, labelled `"true"`. -/
def namelessTrueBox : Container :=
  { ID := str "66666666666666ff", Names := [], State := str "running",
    Labels := [(str "sleep-proxy.enable", str "true")] }

/-- A container whose id has three bytes. -/
def shortBox : Container :=
  { ID := str "abc", Names := [str "/tiny"], State := str "running", Labels := [] }

/-- A stopped container the engine lists without a name and without labels. -/
def namelessStoppedBox : Container :=
  { ID := str "77777777777777aa", Names := [], State := str "exited", Labels := [] }

/-- A running container the engine lists without a name and without labels. -/
def namelessRunningBox : Container :=
  { ID := str "88888888888888bb", Names := [], State := str "running", Labels := [] }

/-- A second running member with no enable label. -/
def apiBox : Container :=
  { ID := str "99999999999999cc", Names := [str "/api"], State := str "running", Labels := [] }

/-- A listing in which no container is labelled `"true"`. -/
def unlabelledListing : List Container := [proxyBox, webBox, cacheBox, mailBox]

/-- An environment that sets the two required variables and nothing else. -/
def plainEnv : Env := [(str "TARGET_SERVICE", str "web"), (str "TARGET_PORT", str "80")]

/-- An environment that also sets `CHECK_INTERVAL` to 30. -/
def tunedEnv : Env :=
  [(str "TARGET_SERVICE", str "web"), (str "TARGET_PORT", str "80"),
    (str "CHECK_INTERVAL", str "30")]

/-- The configuration with every optional setting at its default but the check interval. -/
def envConfig (checkInterval : Int) : Config :=
  { ProxyPort := str "8000", TargetService := str "web", TargetPort := str "80",
    SleepTimeout := 86400 * second, CheckInterval := checkInterval,
    EndpointPrefix := str "sleep-proxy", AllowListMode := false, DockerHost := [] }

/-- A controller of project "shop" running under a given configuration. -/
def configuredProxy (config : Config) : SleepProxy Nat :=
  { projectName := str "shop", containerID := ownID, config := config,
    dockerClient := scriptedClient [] [] [] }

/-! ## Lemmas on discovery -/

/-- Against an id shorter than 12 bytes, a different id has a different 12-byte prefix. -/
theorem take_twelve_ne_of_short {a b : GoString} (hne : a ≠ b) (hb : ¬ 12 ≤ b.length) :
    a.take 12 ≠ b.take 12 := by
  intro h
  have hb2 : b.take 12 = b := List.take_of_length_le (by omega)
  rw [hb2] at h
  have hlen : (a.take 12).length = b.length := by rw [h]
  rw [List.length_take] at hlen
  have ha2 : a.take 12 = a := List.take_of_length_le (by omega)
  exact hne (by rw [← ha2, h])

/-- Whenever the check of line 30 returns, it answers the specified self-exclusion. -/
theorem isProxyContainer_ret {containerID : GoString} {c : Container} {b : Bool}
    (h : isProxyContainer containerID c = .ret b) : b = isController containerID c := by
  unfold isProxyContainer at h
  unfold isController
  by_cases hid : c.ID = containerID
  · simp [hid] at h
    simp [hid, ← h]
  · by_cases hlen : 12 ≤ containerID.length
    · simp only [hid, hlen, if_true, if_false, sliceTo] at h
      by_cases hc : 12 ≤ c.ID.length
      · simp only [hc, if_true, Outcome.ret.injEq] at h
        simp [hid, ← h]
      · simp [hc] at h
    · simp only [hid, hlen, if_false, Outcome.ret.injEq] at h
      have := take_twelve_ne_of_short hid hlen
      simp [hid, this, ← h]

/-- A filter loop that returns has appended exactly the members of the rest of the
listing, in order. -/
theorem filterLoop_ret (containerID : GoString) (allowListMode : Bool) :
    ∀ (l acc r : List Container), filterLoop containerID allowListMode l acc = .ret r →
      r = acc ++ l.filter (isMember containerID allowListMode) := by
  intro l
  induction l with
  | nil =>
    intro acc r h
    simp [filterLoop] at h
    simp [h]
  | cons c rest ih =>
    intro acc r h
    unfold filterLoop at h
    cases hp : isProxyContainer containerID c with
    | fault => simp [hp] at h
    | ret b =>
      have hb := isProxyContainer_ret hp
      cases b with
      | true =>
        simp only [hp] at h
        have := ih _ _ h
        simp [this, isMember, ← hb]
      | false =>
        simp only [hp] at h
        cases allowListMode with
        | true =>
          by_cases hl : mapIndex c.Labels (str "sleep-proxy.enable") = str "true"
          · simp only [hl, if_true] at h
            cases hn : c.Names with
            | nil => simp [hn] at h
            | cons n ns =>
              simp only [hn] at h
              have := ih _ _ h
              simp [this, isMember, ← hb, policyAdmits, enableLabel, hl]
          · simp only [hl, if_true, if_false] at h
            have := ih _ _ h
            simp [this, isMember, ← hb, policyAdmits, enableLabel, hl]
        | false =>
          by_cases hl : mapIndex c.Labels (str "sleep-proxy.enable") = str "false"
          · simp only [hl, ne_eq, not_true_eq_false, if_false, Bool.false_eq_true] at h
            cases hn : c.Names with
            | nil => simp [hn] at h
            | cons n ns =>
              simp only [hn] at h
              have := ih _ _ h
              simp [this, isMember, ← hb, policyAdmits, enableLabel, hl]
          · simp only [hl, ne_eq, not_false_eq_true, if_true, if_false, Bool.false_eq_true] at h
            have := ih _ _ h
            simp [this, isMember, ← hb, policyAdmits, enableLabel, hl]

/-- The world after discovery: the engine has answered one list query, nothing else
changed. -/
theorem getProjectContainers_snd {σ : Type} (sp : SleepProxy σ) (w : World σ) :
    (getProjectContainers sp w).2 =
      emit (.list (projectFilter sp.projectName))
        { w with engine := (sp.dockerClient.ContainerList (projectFilter sp.projectName)
            w.engine).2 } := by
  unfold getProjectContainers
  simp only
  split
  · rfl
  · split <;> rfl

/-- The value of discovery depends on the engine state only. -/
theorem getProjectContainers_fst_congr {σ : Type} (sp : SleepProxy σ) (w v : World σ)
    (h : w.engine = v.engine) :
    (getProjectContainers sp w).1 = (getProjectContainers sp v).1 := by
  unfold getProjectContainers
  simp only [h]
  split
  · rfl
  · split <;> rfl

/-- Discovery that returns a member list returns the listing filtered by `isMember`. -/
theorem getProjectContainers_ok {σ : Type} (sp : SleepProxy σ) (w : World σ)
    {listing members : List Container}
    (hlist : (sp.dockerClient.ContainerList (projectFilter sp.projectName) w.engine).1
      = .ok listing)
    (hrun : (getProjectContainers sp w).1 = .ret (.ok members)) :
    members = listing.filter (isMember sp.containerID sp.config.AllowListMode) := by
  unfold getProjectContainers at hrun
  simp only [hlist] at hrun
  cases hf : filterLoop sp.containerID sp.config.AllowListMode listing [] with
  | fault => simp [hf] at hrun
  | ret r =>
    simp only [hf, Outcome.ret.injEq, Except.ok.injEq] at hrun
    have := filterLoop_ret _ _ _ _ _ hf
    simp [← hrun, this]

/-- When the list query fails, discovery returns its error. -/
theorem getProjectContainers_error {σ : Type} (sp : SleepProxy σ) (w : World σ) {err : GoError}
    (hlist : (sp.dockerClient.ContainerList (projectFilter sp.projectName) w.engine).1
      = .error err) :
    (getProjectContainers sp w).1 = .ret (.error err) := by
  unfold getProjectContainers
  simp only [hlist]

/-! ## Lemmas on traces and on the two batch loops -/

@[simp] theorem startCalls_append (s t : List Event) :
    startCalls (s ++ t) = startCalls s ++ startCalls t := by
  simp [startCalls, List.filterMap_append]

@[simp] theorem stopCalls_append (s t : List Event) :
    stopCalls (s ++ t) = stopCalls s ++ stopCalls t := by
  simp [stopCalls, List.filterMap_append]

@[simp] theorem procCalls_append (s t : List Event) :
    procCalls (s ++ t) = procCalls s ++ procCalls t := by
  simp [procCalls, List.filterMap_append]

@[simp] theorem startCalls_nil : startCalls [] = [] := rfl

@[simp] theorem startCalls_cons_list (f : GoString) (t : List Event) :
    startCalls (.list f :: t) = startCalls t := rfl

@[simp] theorem startCalls_cons_start (id : GoString) (t : List Event) :
    startCalls (.start id :: t) = id :: startCalls t := rfl

@[simp] theorem startCalls_cons_stop (id : GoString) (d : Option Int) (t : List Event) :
    startCalls (.stop id d :: t) = startCalls t := rfl

@[simp] theorem startCalls_cons_call (p : Proc) (t : List Event) :
    startCalls (.call p :: t) = startCalls t := rfl

@[simp] theorem stopCalls_nil : stopCalls [] = [] := rfl

@[simp] theorem stopCalls_cons_list (f : GoString) (t : List Event) :
    stopCalls (.list f :: t) = stopCalls t := rfl

@[simp] theorem stopCalls_cons_start (id : GoString) (t : List Event) :
    stopCalls (.start id :: t) = stopCalls t := rfl

@[simp] theorem stopCalls_cons_stop (id : GoString) (d : Option Int) (t : List Event) :
    stopCalls (.stop id d :: t) = (id, d) :: stopCalls t := rfl

@[simp] theorem stopCalls_cons_call (p : Proc) (t : List Event) :
    stopCalls (.call p :: t) = stopCalls t := rfl

@[simp] theorem procCalls_nil : procCalls [] = [] := rfl

@[simp] theorem procCalls_cons_list (f : GoString) (t : List Event) :
    procCalls (.list f :: t) = procCalls t := rfl

@[simp] theorem procCalls_cons_start (id : GoString) (t : List Event) :
    procCalls (.start id :: t) = procCalls t := rfl

@[simp] theorem procCalls_cons_stop (id : GoString) (d : Option Int) (t : List Event) :
    procCalls (.stop id d :: t) = procCalls t := rfl

@[simp] theorem procCalls_cons_call (p : Proc) (t : List Event) :
    procCalls (.call p :: t) = p :: procCalls t := rfl

@[simp] theorem startCalls_map_start (l : List Container) :
    startCalls (l.map fun c => Event.start c.ID) = l.map fun c => c.ID := by
  induction l with
  | nil => rfl
  | cons c rest ih =>
    simp only [List.map_cons]
    rw [← ih]
    rfl

@[simp] theorem stopCalls_map_start (l : List Container) :
    stopCalls (l.map fun c => Event.start c.ID) = [] := by
  induction l with
  | nil => rfl
  | cons c rest ih =>
    simp only [List.map_cons]
    rw [← ih]
    rfl

@[simp] theorem procCalls_map_start (l : List Container) :
    procCalls (l.map fun c => Event.start c.ID) = [] := by
  induction l with
  | nil => rfl
  | cons c rest ih =>
    simp only [List.map_cons]
    rw [← ih]
    rfl

@[simp] theorem stopCalls_map_stop (t : Option Int) (l : List Container) :
    stopCalls (l.map fun c => Event.stop c.ID t) = l.map fun c => (c.ID, t) := by
  induction l with
  | nil => rfl
  | cons c rest ih =>
    simp only [List.map_cons]
    rw [← ih]
    rfl

@[simp] theorem startCalls_map_stop (t : Option Int) (l : List Container) :
    startCalls (l.map fun c => Event.stop c.ID t) = [] := by
  induction l with
  | nil => rfl
  | cons c rest ih =>
    simp only [List.map_cons]
    rw [← ih]
    rfl

@[simp] theorem procCalls_map_stop (t : Option Int) (l : List Container) :
    procCalls (l.map fun c => Event.stop c.ID t) = [] := by
  induction l with
  | nil => rfl
  | cons c rest ih =>
    simp only [List.map_cons]
    rw [← ih]
    rfl

/-- The start loop only appends start events for containers of its list, and leaves the
activity state alone, whether it completes or faults. -/
theorem startLoop_frame {σ : Type} (sp : SleepProxy σ) :
    ∀ (l : List Container) (w : World σ),
      (startLoop sp l w).2.containersUp = w.containersUp ∧
      (startLoop sp l w).2.lastActivity = w.lastActivity ∧
      ∃ started : List Container,
        (startLoop sp l w).2.trace = w.trace ++ started.map fun c => Event.start c.ID := by
  intro l
  induction l with
  | nil => intro w; exact ⟨rfl, rfl, [], by simp [startLoop]⟩
  | cons c rest ih =>
    intro w
    unfold startLoop
    split
    · split
      · exact ⟨rfl, rfl, [], by simp⟩
      · obtain ⟨h1, h2, started, h3⟩ :=
          ih (emit (.start c.ID) { w with engine := (sp.dockerClient.ContainerStart c.ID w.engine).2 })
        refine ⟨h1, h2, c :: started, ?_⟩
        rw [h3]
        simp [emit]
    · exact ih w

/-- The start loop over members that can be named completes, having started exactly the
members that are not running, in order. -/
theorem startLoop_run {σ : Type} (sp : SleepProxy σ) :
    ∀ (l : List Container) (w : World σ),
      (∀ c ∈ l, c.State ≠ str "running" → c.Names ≠ []) →
      (startLoop sp l w).1 = .ret () ∧
      (startLoop sp l w).2.trace = w.trace ++
        (l.filter fun c => decide (c.State ≠ str "running")).map fun c => Event.start c.ID := by
  intro l
  induction l with
  | nil => intro w _; simp [startLoop]
  | cons c rest ih =>
    intro w hn
    have hrest : ∀ d ∈ rest, d.State ≠ str "running" → d.Names ≠ [] :=
      fun d hd => hn d (List.mem_cons_of_mem _ hd)
    unfold startLoop
    by_cases hs : c.State = str "running"
    · simp only [hs, ne_eq, not_true_eq_false, if_false]
      have := ih w hrest
      simpa [hs] using this
    · simp only [hs, ne_eq, not_false_eq_true, if_true]
      cases hnm : c.Names with
      | nil => exact absurd hnm (hn c (List.mem_cons_self _ _) hs)
      | cons n ns =>
        simp only
        have := ih (emit (.start c.ID)
          { w with engine := (sp.dockerClient.ContainerStart c.ID w.engine).2 }) hrest
        refine ⟨this.1, ?_⟩
        rw [this.2]
        simp [emit, hs]

/-- The stop loop only appends stop events with the given grace period, and leaves the
activity state alone, whether it completes or faults. -/
theorem stopLoop_frame {σ : Type} (sp : SleepProxy σ) (timeout : Int) :
    ∀ (l : List Container) (w : World σ),
      (stopLoop sp timeout l w).2.containersUp = w.containersUp ∧
      (stopLoop sp timeout l w).2.lastActivity = w.lastActivity ∧
      ∃ stopped : List Container,
        (stopLoop sp timeout l w).2.trace =
          w.trace ++ stopped.map fun c => Event.stop c.ID (some timeout) := by
  intro l
  induction l with
  | nil => intro w; exact ⟨rfl, rfl, [], by simp [stopLoop]⟩
  | cons c rest ih =>
    intro w
    unfold stopLoop
    split
    · split
      · exact ⟨rfl, rfl, [], by simp⟩
      · obtain ⟨h1, h2, stopped, h3⟩ :=
          ih (emit (.stop c.ID (some timeout))
            { w with engine := (sp.dockerClient.ContainerStop c.ID (some timeout) w.engine).2 })
        refine ⟨h1, h2, c :: stopped, ?_⟩
        rw [h3]
        simp [emit]
    · exact ih w

/-- The stop loop over members that can be named completes, having stopped exactly the
running members, in order. -/
theorem stopLoop_run {σ : Type} (sp : SleepProxy σ) (timeout : Int) :
    ∀ (l : List Container) (w : World σ),
      (∀ c ∈ l, c.State = str "running" → c.Names ≠ []) →
      (stopLoop sp timeout l w).1 = .ret () ∧
      (stopLoop sp timeout l w).2.trace = w.trace ++
        (l.filter fun c => decide (c.State = str "running")).map
          fun c => Event.stop c.ID (some timeout) := by
  intro l
  induction l with
  | nil => intro w _; simp [stopLoop]
  | cons c rest ih =>
    intro w hn
    have hrest : ∀ d ∈ rest, d.State = str "running" → d.Names ≠ [] :=
      fun d hd => hn d (List.mem_cons_of_mem _ hd)
    unfold stopLoop
    by_cases hs : c.State = str "running"
    · simp only [hs, if_true]
      cases hnm : c.Names with
      | nil => exact absurd hnm (hn c (List.mem_cons_self _ _) hs)
      | cons n ns =>
        simp only
        have := ih (emit (.stop c.ID (some timeout))
          { w with engine := (sp.dockerClient.ContainerStop c.ID (some timeout) w.engine).2 })
          hrest
        refine ⟨this.1, ?_⟩
        rw [this.2]
        simp [emit, hs]
    · simp only [hs, if_false]
      have := ih w hrest
      simpa [hs] using this

/-! ## Lemmas on `startContainers` and `stopContainers` -/

/-- Every run of `startContainers`, whatever its outcome, leaves the activity state alone
and adds to the trace its entry mark, one list query and start events only. -/
theorem startContainers_frame {σ : Type} (sp : SleepProxy σ) (w : World σ) :
    (startContainers sp w).2.containersUp = w.containersUp ∧
    (startContainers sp w).2.lastActivity = w.lastActivity ∧
    ∃ started : List Container,
      (startContainers sp w).2.trace =
        w.trace ++ [.call .startContainers, .list (projectFilter sp.projectName)] ++
          started.map fun c => Event.start c.ID := by
  unfold startContainers
  simp only
  split
  · rw [getProjectContainers_snd]
    exact ⟨rfl, rfl, [], by simp [emit]⟩
  · rw [getProjectContainers_snd]
    exact ⟨rfl, rfl, [], by simp [emit]⟩
  · rename_i containers _
    obtain ⟨h1, h2, started, h3⟩ :=
      startLoop_frame sp containers (getProjectContainers sp (emit (.call .startContainers) w)).2
    rw [getProjectContainers_snd] at h1 h2 h3
    have key : ∀ (x : Outcome Unit × World σ),
        x = startLoop sp containers (getProjectContainers sp (emit (.call .startContainers) w)).2 →
        (match x.1 with
          | .fault => ((Outcome.fault : Outcome (Option GoError)), x.2)
          | .ret () => (Outcome.ret none, x.2)).2 = x.2 := by
      intro x _
      cases x.1 <;> rfl
    rw [key _ rfl, getProjectContainers_snd]
    exact ⟨h1, h2, started, by rw [h3]; simp [emit]⟩

/-- When discovery returns members that can be named where needed, `startContainers`
returns nil and its trace is the entry mark, the list query and one start event for each
member that is not running, in order. -/
theorem startContainers_run {σ : Type} (sp : SleepProxy σ) (w : World σ)
    {members : List Container}
    (hdisc : (getProjectContainers sp w).1 = .ret (.ok members))
    (hnames : ∀ c ∈ members, c.State ≠ str "running" → c.Names ≠ []) :
    (startContainers sp w).1 = .ret none ∧
    (startContainers sp w).2.trace =
      w.trace ++ [.call .startContainers, .list (projectFilter sp.projectName)] ++
        (members.filter fun c => decide (c.State ≠ str "running")).map
          fun c => Event.start c.ID := by
  have hd : (getProjectContainers sp (emit (.call .startContainers) w)).1
      = .ret (.ok members) := by
    rw [← hdisc]
    exact getProjectContainers_fst_congr sp _ _ rfl
  have hl := startLoop_run sp members
    (getProjectContainers sp (emit (.call .startContainers) w)).2 hnames
  unfold startContainers
  simp only [hd, hl.1]
  refine ⟨trivial, ?_⟩
  rw [hl.2, getProjectContainers_snd]
  simp [emit]

/-- When the list query fails, `startContainers` returns the wrapped error after the list
query alone. -/
theorem startContainers_error {σ : Type} (sp : SleepProxy σ) (w : World σ) {err : GoError}
    (hlist : (sp.dockerClient.ContainerList (projectFilter sp.projectName) w.engine).1
      = .error err) :
    (startContainers sp w).1 = .ret (some ("failed to list containers: " ++ err)) ∧
    (startContainers sp w).2.trace =
      w.trace ++ [.call .startContainers, .list (projectFilter sp.projectName)] := by
  have hd : (getProjectContainers sp (emit (.call .startContainers) w)).1
      = .ret (.error err) := getProjectContainers_error sp _ hlist
  unfold startContainers
  simp only [hd]
  refine ⟨trivial, ?_⟩
  rw [getProjectContainers_snd]
  simp [emit]

/-- Every run of `stopContainers`, whatever its outcome, leaves `lastActivity` alone and
adds to the trace its entry mark, one list query and stop events with a grace period of
10 only; `containersUp` is cleared when it returns nil and kept otherwise. -/
theorem stopContainers_frame {σ : Type} (sp : SleepProxy σ) (w : World σ) :
    (stopContainers sp w).2.lastActivity = w.lastActivity ∧
    ((stopContainers sp w).1 = .ret none → (stopContainers sp w).2.containersUp = false) ∧
    ((stopContainers sp w).1 ≠ .ret none →
      (stopContainers sp w).2.containersUp = w.containersUp) ∧
    ∃ stopped : List Container,
      (stopContainers sp w).2.trace =
        w.trace ++ [.call .stopContainers, .list (projectFilter sp.projectName)] ++
          stopped.map fun c => Event.stop c.ID (some 10) := by
  unfold stopContainers
  simp only
  split
  · rw [getProjectContainers_snd]
    exact ⟨rfl, by simp, fun _ => rfl, [], by simp [emit]⟩
  · rw [getProjectContainers_snd]
    exact ⟨rfl, by simp, fun _ => rfl, [], by simp [emit]⟩
  · rename_i containers _
    obtain ⟨h1, h2, stopped, h3⟩ :=
      stopLoop_frame sp 10 containers (getProjectContainers sp (emit (.call .stopContainers) w)).2
    rw [getProjectContainers_snd] at h1 h2 h3
    cases hx : (stopLoop sp 10 containers
        (getProjectContainers sp (emit (.call .stopContainers) w)).2).1 with
    | fault =>
      simp only [getProjectContainers_snd] at hx ⊢
      exact ⟨h2, by simp, fun _ => h1, stopped, by rw [h3]; simp [emit]⟩
    | ret u =>
      simp only [getProjectContainers_snd] at hx ⊢
      exact ⟨h2, fun _ => rfl, by simp, stopped, by
        show (stopLoop sp 10 containers _).2.trace = _
        rw [h3]; simp [emit]⟩

/-- When discovery returns members that can be named where needed, `stopContainers`
returns nil, clears `containersUp`, and its trace is the entry mark, the list query and one
stop event with a grace period of 10 for each running member, in order. -/
theorem stopContainers_run {σ : Type} (sp : SleepProxy σ) (w : World σ)
    {members : List Container}
    (hdisc : (getProjectContainers sp w).1 = .ret (.ok members))
    (hnames : ∀ c ∈ members, c.State = str "running" → c.Names ≠ []) :
    (stopContainers sp w).1 = .ret none ∧
    (stopContainers sp w).2.containersUp = false ∧
    (stopContainers sp w).2.trace =
      w.trace ++ [.call .stopContainers, .list (projectFilter sp.projectName)] ++
        (members.filter fun c => decide (c.State = str "running")).map
          fun c => Event.stop c.ID (some 10) := by
  have hd : (getProjectContainers sp (emit (.call .stopContainers) w)).1
      = .ret (.ok members) := by
    rw [← hdisc]
    exact getProjectContainers_fst_congr sp _ _ rfl
  have hl := stopLoop_run sp 10 members
    (getProjectContainers sp (emit (.call .stopContainers) w)).2 hnames
  unfold stopContainers
  simp only [hd, hl.1]
  refine ⟨trivial, rfl, ?_⟩
  show (stopLoop sp 10 members _).2.trace = _
  rw [hl.2, getProjectContainers_snd]
  simp [emit]

/-- When the list query fails, `stopContainers` returns the wrapped error after the list
query alone, and does not touch `containersUp`. -/
theorem stopContainers_error {σ : Type} (sp : SleepProxy σ) (w : World σ) {err : GoError}
    (hlist : (sp.dockerClient.ContainerList (projectFilter sp.projectName) w.engine).1
      = .error err) :
    (stopContainers sp w).1 = .ret (some ("failed to list containers: " ++ err)) ∧
    (stopContainers sp w).2.containersUp = w.containersUp ∧
    (stopContainers sp w).2.trace =
      w.trace ++ [.call .stopContainers, .list (projectFilter sp.projectName)] := by
  have hd : (getProjectContainers sp (emit (.call .stopContainers) w)).1
      = .ret (.error err) := getProjectContainers_error sp _ hlist
  unfold stopContainers
  simp only [hd]
  refine ⟨trivial, ?_, ?_⟩
  · rw [getProjectContainers_snd]; rfl
  · rw [getProjectContainers_snd]
    simp [emit]

/-- When the list query succeeds, `startContainers` either faults or returns nil. -/
theorem startContainers_of_listed {σ : Type} (sp : SleepProxy σ) (w : World σ)
    {listing : List Container}
    (hlist : (sp.dockerClient.ContainerList (projectFilter sp.projectName) w.engine).1
      = .ok listing) :
    (startContainers sp w).1 = .fault ∨ (startContainers sp w).1 = .ret none := by
  have hl : (sp.dockerClient.ContainerList (projectFilter sp.projectName)
      (emit (.call .startContainers) w).engine).1 = .ok listing := hlist
  unfold startContainers
  simp only
  cases hd : (getProjectContainers sp (emit (.call .startContainers) w)).1 with
  | fault => exact Or.inl rfl
  | ret r =>
    cases r with
    | error err =>
      unfold getProjectContainers at hd
      simp only [hl] at hd
      split at hd <;> simp at hd
    | ok containers =>
      simp only
      cases (startLoop sp containers
        (getProjectContainers sp (emit (.call .startContainers) w)).2).1 with
      | fault => exact Or.inl rfl
      | ret u => exact Or.inr rfl

/-! ## Lemmas on the monitor cycle -/

/-- An idle time within the timeout is not reported above it by `time.Since`. -/
theorem since_not_gt {now t T : Int} (hidle : now - t ≤ T) (hT : minDuration ≤ T) :
    ¬ since now t > T := by
  unfold since
  simp only
  split_ifs <;> omega

/-- An idle time of the timeout plus one second is reported above the timeout. -/
theorem since_gt {now t T : Int} (ht : t = now - (T + second)) (hT : isDuration (T + second)) :
    since now t > T := by
  obtain ⟨h1, h2⟩ := hT
  unfold since
  simp only
  unfold second at *
  split_ifs <;> omega

/-- The loop answers whether the start value holds and every container is running. -/
theorem allRunningLoop_eq (l : List Container) (b : Bool) :
    allRunningLoop l b = (b && l.all fun c => decide (c.State = str "running")) := by
  induction l with
  | nil => simp [allRunningLoop]
  | cons c rest ih =>
    unfold allRunningLoop
    by_cases hs : c.State = str "running"
    · simp [hs, ih]
    · simp [hs]

/-- A cycle whose list query fails returns after the list query alone. -/
theorem monitorCycle_error {σ : Type} (sp : SleepProxy σ) (now : Int) (w : World σ)
    {err : GoError}
    (hlist : (sp.dockerClient.ContainerList (projectFilter sp.projectName) w.engine).1
      = .error err) :
    (monitorCycle sp now w).1 = .ret () ∧
    (monitorCycle sp now w).2 = (getProjectContainers sp w).2 := by
  unfold monitorCycle
  simp only [getProjectContainers_error sp w hlist]
  exact ⟨trivial, trivial⟩

/-- A cycle in which the idle time does not exceed the sleep timeout adds the list query
to the trace and nothing else, whatever its outcome, and keeps `lastActivity`. -/
theorem monitorCycle_quiet {σ : Type} (sp : SleepProxy σ) (now : Int) (w : World σ)
    (hidle : now - w.lastActivity ≤ sp.config.SleepTimeout)
    (hT : minDuration ≤ sp.config.SleepTimeout) :
    (monitorCycle sp now w).2.trace = w.trace ++ [.list (projectFilter sp.projectName)] ∧
    (monitorCycle sp now w).2.lastActivity = w.lastActivity := by
  have hs := since_not_gt hidle hT
  unfold monitorCycle
  simp only
  cases hd : (getProjectContainers sp w).1 with
  | fault => simp [getProjectContainers_snd, emit]
  | ret r =>
    cases r with
    | error e => simp [getProjectContainers_snd, emit]
    | ok containers =>
      simp only [areContainersUp, getLastActivity, setContainersUp, getProjectContainers_snd,
        emit]
      split_ifs <;> simp_all

/-! ## The claims on discovery and on the two batch procedures -/

/-- C1: for every engine listing, both modes, and every listed container that is not the
controller itself (its id and its first 12 bytes both differ from the controller's own),
the member list returned by `getProjectContainers` includes the container exactly as the
decision table says, the label `sleep-proxy.enable` reading `""` when absent: in
allow-list mode if and only if the label is `"true"`, in deny-list mode if and only if
the label is not `"false"`. -/
theorem getProjectContainers_decision_table {σ : Type} (sp : SleepProxy σ) (w : World σ)
    (listing members : List Container) (c : Container)
    (hlist : (sp.dockerClient.ContainerList (projectFilter sp.projectName) w.engine).1
      = .ok listing)
    (hrun : (getProjectContainers sp w).1 = .ret (.ok members))
    (hc : c ∈ listing)
    (hid : c.ID ≠ sp.containerID)
    (hpre : c.ID.take 12 ≠ sp.containerID.take 12) :
    (sp.config.AllowListMode = true →
      (c ∈ members ↔ mapIndex c.Labels (str "sleep-proxy.enable") = str "true")) ∧
    (sp.config.AllowListMode = false →
      (c ∈ members ↔ mapIndex c.Labels (str "sleep-proxy.enable") ≠ str "false")) := by
  have hm := getProjectContainers_ok sp w hlist hrun
  subst hm
  constructor
  · intro ha
    simp [List.mem_filter, hc, isMember, isController, hid, hpre, policyAdmits, enableLabel, ha]
  · intro ha
    simp [List.mem_filter, hc, isMember, isController, hid, hpre, policyAdmits, enableLabel, ha]

theorem getProjectContainers_decision_table_witness :
    ((shopProxy false [.ok shopListing] [] []).config.AllowListMode = true →
      (cacheBox ∈ [webBox, dbBox, mailBox] ↔
        mapIndex cacheBox.Labels (str "sleep-proxy.enable") = str "true")) ∧
    ((shopProxy false [.ok shopListing] [] []).config.AllowListMode = false →
      (cacheBox ∈ [webBox, dbBox, mailBox] ↔
        mapIndex cacheBox.Labels (str "sleep-proxy.enable") ≠ str "false")) :=
  getProjectContainers_decision_table (shopProxy false [.ok shopListing] [] [])
    (freshWorld false 0) shopListing [webBox, dbBox, mailBox] cacheBox
    (by decide) (by decide) (by decide) (by decide) (by decide)

/-- C2: for every engine listing, own id, labels and both modes, no container whose id
equals the controller's own id, or whose first 12 bytes equal the first 12 bytes of the
controller's own id, is in the member list returned by `getProjectContainers`. -/
theorem getProjectContainers_excludes_controller {σ : Type} (sp : SleepProxy σ) (w : World σ)
    (members : List Container) (c : Container)
    (hrun : (getProjectContainers sp w).1 = .ret (.ok members))
    (hc : c ∈ members) :
    c.ID ≠ sp.containerID ∧ c.ID.take 12 ≠ sp.containerID.take 12 := by
  cases hlist : (sp.dockerClient.ContainerList (projectFilter sp.projectName) w.engine).1 with
  | error err =>
    rw [getProjectContainers_error sp w hlist] at hrun
    simp at hrun
  | ok listing =>
    have hm := getProjectContainers_ok sp w hlist hrun
    subst hm
    have hmem := (List.mem_filter.mp hc).2
    simp only [isMember, isController, Bool.and_eq_true, Bool.not_eq_true_eq_eq_false,
      Bool.or_eq_false_iff, decide_eq_false_iff_not] at hmem
    exact hmem.1

theorem getProjectContainers_excludes_controller_witness :
    webBox.ID ≠ (shopProxy false [.ok [proxyBox, webBox]] [] []).containerID ∧
    webBox.ID.take 12 ≠ (shopProxy false [.ok [proxyBox, webBox]] [] []).containerID.take 12 :=
  getProjectContainers_excludes_controller (shopProxy false [.ok [proxyBox, webBox]] [] [])
    (freshWorld false 0) [webBox] webBox (by decide) (by decide)

/-- On every run `startContainers` issues no stop call; and when discovery returns a member
list in which each member that is not running has a name for the log line, it issues a
start call for exactly the members whose state is not `"running"`, once each and in
listing order, whatever the client answers to each start call, and then returns nil. -/
theorem startContainers_starts_stopped_members {σ : Type} (sp : SleepProxy σ) (w : World σ) :
    stopCalls (startContainers sp w).2.trace = stopCalls w.trace ∧
    ∀ members : List Container,
      (getProjectContainers sp w).1 = .ret (.ok members) →
      (∀ c ∈ members, c.State ≠ str "running" → c.Names ≠ []) →
      (startContainers sp w).1 = .ret none ∧
      startCalls (startContainers sp w).2.trace = startCalls w.trace ++
        (members.filter fun c => decide (c.State ≠ str "running")).map (fun c => c.ID) ∧
      ((∀ c ∈ members, c.State = str "running") →
        startCalls (startContainers sp w).2.trace = startCalls w.trace) := by
  constructor
  · obtain ⟨_, _, started, h⟩ := startContainers_frame sp w
    rw [h]
    simp
  · intro members hdisc hnames
    obtain ⟨h1, h2⟩ := startContainers_run sp w hdisc hnames
    refine ⟨h1, ?_, ?_⟩
    · rw [h2]
      simp
    · intro hall
      rw [h2]
      have hnil : (members.filter fun c => decide (c.State ≠ str "running")) = [] := by
        rw [List.filter_eq_nil_iff]
        intro c hc
        simp [hall c hc]
      rw [hnil]
      simp

/-- On every run `stopContainers` issues no start call and every stop call it issues
carries a grace period of 10 seconds; and when discovery returns a member list in which
each running member has a name for the log line, it issues a stop call for exactly the
members whose state is `"running"`, once each and in listing order, whatever the client
answers to each stop call, and then returns nil. -/
theorem stopContainers_stops_running_members {σ : Type} (sp : SleepProxy σ) (w : World σ) :
    startCalls (stopContainers sp w).2.trace = startCalls w.trace ∧
    (∃ stopped : List GoString, stopCalls (stopContainers sp w).2.trace =
      stopCalls w.trace ++ stopped.map fun id => (id, some 10)) ∧
    ∀ members : List Container,
      (getProjectContainers sp w).1 = .ret (.ok members) →
      (∀ c ∈ members, c.State = str "running" → c.Names ≠ []) →
      (stopContainers sp w).1 = .ret none ∧
      stopCalls (stopContainers sp w).2.trace = stopCalls w.trace ++
        (members.filter fun c => decide (c.State = str "running")).map
          (fun c => (c.ID, some 10)) ∧
      ((∀ c ∈ members, c.State ≠ str "running") →
        stopCalls (stopContainers sp w).2.trace = stopCalls w.trace) := by
  refine ⟨?_, ?_, ?_⟩
  · obtain ⟨_, _, _, stopped, h⟩ := stopContainers_frame sp w
    rw [h]
    simp
  · obtain ⟨_, _, _, stopped, h⟩ := stopContainers_frame sp w
    refine ⟨stopped.map fun c => c.ID, ?_⟩
    rw [h]
    simp
  · intro members hdisc hnames
    obtain ⟨h1, _, h2⟩ := stopContainers_run sp w hdisc hnames
    refine ⟨h1, ?_, ?_⟩
    · rw [h2]
      simp
    · intro hnone
      rw [h2]
      have hnil : (members.filter fun c => decide (c.State = str "running")) = [] := by
        rw [List.filter_eq_nil_iff]
        intro c hc
        simp [hnone c hc]
      rw [hnil]
      simp

/-- On every run `startContainers` returns an error if and only if the engine list query
failed; and when discovery returns a member list in which each member that is not running
has a name for the log line, it returns nil, whatever the client answers to the start
calls. -/
theorem startContainers_error_iff_list_failed {σ : Type} (sp : SleepProxy σ) (w : World σ) :
    ((∃ e : GoError, (startContainers sp w).1 = .ret (some e)) ↔
      ∃ err : GoError,
        (sp.dockerClient.ContainerList (projectFilter sp.projectName) w.engine).1
          = .error err) ∧
    ∀ members : List Container,
      (getProjectContainers sp w).1 = .ret (.ok members) →
      (∀ c ∈ members, c.State ≠ str "running" → c.Names ≠ []) →
      (startContainers sp w).1 = .ret none := by
  constructor
  · constructor
    · rintro ⟨e, he⟩
      cases hlist : (sp.dockerClient.ContainerList (projectFilter sp.projectName) w.engine).1 with
      | error err => exact ⟨err, rfl⟩
      | ok listing =>
        rcases startContainers_of_listed sp w hlist with h | h
        · rw [h] at he; simp at he
        · rw [h] at he; simp at he
    · rintro ⟨err, herr⟩
      exact ⟨_, (startContainers_error sp w herr).1⟩
  · intro members hdisc hnames
    exact (startContainers_run sp w hdisc hnames).1

/-- When the discovery of `stopContainers` returns a member list in which each running
member has a name for the log line, `stopContainers` returns nil and leaves
`containersUp = false`, whatever the client answers to the stop calls. -/
theorem stopContainers_marks_down {σ : Type} (sp : SleepProxy σ) (w : World σ)
    (members : List Container)
    (hdisc : (getProjectContainers sp w).1 = .ret (.ok members))
    (hnames : ∀ c ∈ members, c.State = str "running" → c.Names ≠ []) :
    (stopContainers sp w).1 = .ret none ∧ (stopContainers sp w).2.containersUp = false := by
  obtain ⟨h1, h2, _⟩ := stopContainers_run sp w hdisc hnames
  exact ⟨h1, h2⟩

/-- C7: when the engine list query fails, `startContainers` and `stopContainers` each
return an error (the list error wrapped), issue no start or stop call, and leave
`containersUp` and `lastActivity` exactly as they were; `stopContainers` does not clear
`containersUp` on that path. -/
theorem batch_list_failure_changes_nothing {σ : Type} (sp : SleepProxy σ) (w : World σ)
    (err : GoError)
    (hlist : (sp.dockerClient.ContainerList (projectFilter sp.projectName) w.engine).1
      = .error err) :
    ((startContainers sp w).1 = .ret (some ("failed to list containers: " ++ err)) ∧
      startCalls (startContainers sp w).2.trace = startCalls w.trace ∧
      stopCalls (startContainers sp w).2.trace = stopCalls w.trace ∧
      (startContainers sp w).2.containersUp = w.containersUp ∧
      (startContainers sp w).2.lastActivity = w.lastActivity) ∧
    ((stopContainers sp w).1 = .ret (some ("failed to list containers: " ++ err)) ∧
      startCalls (stopContainers sp w).2.trace = startCalls w.trace ∧
      stopCalls (stopContainers sp w).2.trace = stopCalls w.trace ∧
      (stopContainers sp w).2.containersUp = w.containersUp ∧
      (stopContainers sp w).2.lastActivity = w.lastActivity) := by
  constructor
  · obtain ⟨h1, h2⟩ := startContainers_error sp w hlist
    obtain ⟨f1, f2, _⟩ := startContainers_frame sp w
    refine ⟨h1, ?_, ?_, f1, f2⟩
    · rw [h2]; simp
    · rw [h2]; simp
  · obtain ⟨h1, hup, h2⟩ := stopContainers_error sp w hlist
    obtain ⟨f1, _⟩ := stopContainers_frame sp w
    refine ⟨h1, ?_, ?_, hup, f1⟩
    · rw [h2]; simp
    · rw [h2]; simp

theorem batch_list_failure_changes_nothing_witness :
    (stopContainers (shopProxy false [.error "daemon down"] [] []) (freshWorld true 7)).1
      = .ret (some ("failed to list containers: " ++ "daemon down")) ∧
    (stopContainers (shopProxy false [.error "daemon down"] [] [])
      (freshWorld true 7)).2.containersUp = (freshWorld true 7).containersUp :=
  have h := batch_list_failure_changes_nothing (shopProxy false [.error "daemon down"] [] [])
    (freshWorld true 7) "daemon down" (by decide)
  ⟨h.2.1, h.2.2.2.2.1⟩

/-! ## The claims on the monitor cycle -/

/-- C8: a monitor cycle whose discovery fails is skipped with no state change:
`containersUp` and `lastActivity` are the same after the cycle as before it, no start or
stop call is issued and neither batch procedure is entered, whatever the tracked state,
the clock and the sleep timeout are. -/
theorem monitorCycle_discovery_failure_skips {σ : Type} (sp : SleepProxy σ) (now : Int)
    (w : World σ) (err : GoError)
    (hlist : (sp.dockerClient.ContainerList (projectFilter sp.projectName) w.engine).1
      = .error err) :
    (monitorCycle sp now w).1 = .ret () ∧
    (monitorCycle sp now w).2.containersUp = w.containersUp ∧
    (monitorCycle sp now w).2.lastActivity = w.lastActivity ∧
    startCalls (monitorCycle sp now w).2.trace = startCalls w.trace ∧
    stopCalls (monitorCycle sp now w).2.trace = stopCalls w.trace ∧
    procCalls (monitorCycle sp now w).2.trace = procCalls w.trace := by
  obtain ⟨h1, h2⟩ := monitorCycle_error sp now w hlist
  rw [h2, getProjectContainers_snd]
  exact ⟨h1, rfl, rfl, by simp [emit], by simp [emit], by simp [emit]⟩

theorem monitorCycle_discovery_failure_skips_witness :
    (monitorCycle (shopProxy false [] [] []) 0 (freshWorld true longAgo)).1 = .ret () ∧
    (monitorCycle (shopProxy false [] [] []) 0 (freshWorld true longAgo)).2.containersUp
      = (freshWorld true longAgo).containersUp :=
  have h := monitorCycle_discovery_failure_skips (shopProxy false [] [] []) 0
    (freshWorld true longAgo) "engine unreachable" (by decide)
  ⟨h.1, h.2.1⟩

/-- C9 as stated fails: each cycle below begins with `containersUp = true` and
`lastActivity = now - (SleepTimeout + 1s)`.  When the list query fails the cycle does not
enter `stopContainers` and ends with `containersUp = true`; when a member is not running
the cycle does not enter `stopContainers`; when the list query of `stopContainers` itself
fails the cycle ends with `containersUp = true`. -/
theorem monitorCycle_sleep_trigger_counterexample :
    ((freshWorld true longAgo).containersUp = true ∧
      (freshWorld true longAgo).lastActivity =
        0 - ((shopProxy false [] [] []).config.SleepTimeout + second)) ∧
    (procCalls (monitorCycle (shopProxy false [] [] []) 0
        (freshWorld true longAgo)).2.trace = [] ∧
      (monitorCycle (shopProxy false [] [] []) 0
        (freshWorld true longAgo)).2.containersUp = true) ∧
    procCalls (monitorCycle (shopProxy false [.ok shopListing, .ok shopListing] [] []) 0
        (freshWorld true longAgo)).2.trace = [] ∧
    (monitorCycle (shopProxy false [.ok [proxyBox, webBox]] [] []) 0
        (freshWorld true longAgo)).2.containersUp = true := by
  decide

/-- C9, amended: a monitor cycle that begins with `containersUp = true` and
`lastActivity = now - (SleepTimeout + 1s)`, that amount being a duration, and whose
discovery returns at least one member with every member running, enters
`stopContainers` exactly once; if the discovery of `stopContainers` returns a member list
too (each running member having a name for the log line), the cycle returns and ends with
`containersUp = false`. -/
theorem monitorCycle_sleep_trigger {σ : Type} (sp : SleepProxy σ) (now : Int) (w : World σ)
    (members : List Container)
    (hup : w.containersUp = true)
    (hlast : w.lastActivity = now - (sp.config.SleepTimeout + second))
    (hdur : isDuration (sp.config.SleepTimeout + second))
    (hdisc : (getProjectContainers sp w).1 = .ret (.ok members))
    (hne : members ≠ [])
    (hall : ∀ c ∈ members, c.State = str "running") :
    procCalls (monitorCycle sp now w).2.trace = procCalls w.trace ++ [.stopContainers] ∧
    ∀ members2 : List Container,
      (getProjectContainers sp (getProjectContainers sp w).2).1 = .ret (.ok members2) →
      (∀ c ∈ members2, c.State = str "running" → c.Names ≠ []) →
      (monitorCycle sp now w).1 = .ret () ∧
      (monitorCycle sp now w).2.containersUp = false := by
  have hs := since_gt hlast hdur
  have hrun : allRunningLoop members (decide (members.length > 0)) = true := by
    rw [allRunningLoop_eq]
    have hlen : 0 < members.length := List.length_pos.mpr hne
    simp only [gt_iff_lt, hlen, decide_True, Bool.true_and, List.all_eq_true,
      decide_eq_true_eq]
    exact hall
  have hup1 : (getProjectContainers sp w).2.containersUp = true := by
    rw [getProjectContainers_snd]; exact hup
  have hla1 : (getProjectContainers sp w).2.lastActivity = w.lastActivity := by
    rw [getProjectContainers_snd]; rfl
  have hcyc : monitorCycle sp now w =
      (match (stopContainers sp (getProjectContainers sp w).2).1 with
        | .fault => (.fault, (stopContainers sp (getProjectContainers sp w).2).2)
        | .ret (some _) => (.ret (), (stopContainers sp (getProjectContainers sp w).2).2)
        | .ret none =>
          (.ret (), setContainersUp false (stopContainers sp (getProjectContainers sp w).2).2)) := by
    unfold monitorCycle
    simp only [hdisc, hrun, areContainersUp, getLastActivity, hup1, hla1, hs,
      Bool.not_true, Bool.and_false, Bool.false_and, Bool.false_eq_true, if_false, if_true]
  obtain ⟨_, _, _, stopped, htr⟩ := stopContainers_frame sp (getProjectContainers sp w).2
  constructor
  · have htrace : (monitorCycle sp now w).2.trace
        = (stopContainers sp (getProjectContainers sp w).2).2.trace := by
      rw [hcyc]
      split <;> rfl
    rw [htrace, htr, getProjectContainers_snd]
    simp [emit]
  · intro members2 hdisc2 hnames2
    obtain ⟨h1, h2, _⟩ := stopContainers_run sp (getProjectContainers sp w).2 hdisc2 hnames2
    rw [hcyc]
    simp only [h1]
    exact ⟨trivial, rfl⟩

theorem monitorCycle_sleep_trigger_witness :
    procCalls (monitorCycle (shopProxy false [.ok [proxyBox, webBox], .ok [proxyBox, webBox]]
        [] [webBox.ID]) 0 (freshWorld true longAgo)).2.trace
      = procCalls (freshWorld true longAgo).trace ++ [.stopContainers] ∧
    (monitorCycle (shopProxy false [.ok [proxyBox, webBox], .ok [proxyBox, webBox]]
        [] [webBox.ID]) 0 (freshWorld true longAgo)).2.containersUp = false :=
  have h := monitorCycle_sleep_trigger
    (shopProxy false [.ok [proxyBox, webBox], .ok [proxyBox, webBox]] [] [webBox.ID]) 0
    (freshWorld true longAgo) [webBox] (by decide) (by decide) (by decide) (by decide)
    (by decide) (by decide)
  ⟨h.1, (h.2 [webBox] (by decide) (by decide)).2⟩

/-- C10: in every monitor cycle in which `now - lastActivity` is at most `SleepTimeout`
(the boundary where they are equal included), the cycle enters neither `startContainers`
nor `stopContainers` and issues no start or stop call to the engine, whatever the
members' states, the tracked state and the outcome of discovery are. -/
theorem monitorCycle_no_premature_sleep {σ : Type} (sp : SleepProxy σ) (now : Int)
    (w : World σ)
    (hT : isDuration sp.config.SleepTimeout)
    (hidle : now - w.lastActivity ≤ sp.config.SleepTimeout) :
    procCalls (monitorCycle sp now w).2.trace = procCalls w.trace ∧
    startCalls (monitorCycle sp now w).2.trace = startCalls w.trace ∧
    stopCalls (monitorCycle sp now w).2.trace = stopCalls w.trace := by
  obtain ⟨h, _⟩ := monitorCycle_quiet sp now w hidle hT.1
  rw [h]
  simp

theorem monitorCycle_no_premature_sleep_witness :
    procCalls (monitorCycle (shopProxy false [.ok [proxyBox, webBox]] [] []) (60 * second)
        (freshWorld true 0)).2.trace = procCalls (freshWorld true 0).trace ∧
    startCalls (monitorCycle (shopProxy false [.ok [proxyBox, webBox]] [] []) (60 * second)
        (freshWorld true 0)).2.trace = startCalls (freshWorld true 0).trace ∧
    stopCalls (monitorCycle (shopProxy false [.ok [proxyBox, webBox]] [] []) (60 * second)
        (freshWorld true 0)).2.trace = stopCalls (freshWorld true 0).trace :=
  monitorCycle_no_premature_sleep (shopProxy false [.ok [proxyBox, webBox]] [] [])
    (60 * second) (freshWorld true 0) (by decide) (by decide)

/-! ## Further lemmas on the monitor cycle -/

/-- No run of a monitor cycle writes `lastActivity`. -/
theorem monitorCycle_lastActivity {σ : Type} (sp : SleepProxy σ) (now : Int) (w : World σ) :
    (monitorCycle sp now w).2.lastActivity = w.lastActivity := by
  have hd2 : (getProjectContainers sp w).2.lastActivity = w.lastActivity := by
    rw [getProjectContainers_snd]; rfl
  unfold monitorCycle
  simp only
  cases hd : (getProjectContainers sp w).1 with
  | fault => exact hd2
  | ret r =>
    cases r with
    | error e => exact hd2
    | ok containers =>
      simp only
      have hstop : ∀ v : World σ, v.lastActivity = w.lastActivity →
          (match (stopContainers sp v).1 with
            | .fault => ((Outcome.fault : Outcome Unit), (stopContainers sp v).2)
            | .ret (some _) => (.ret (), (stopContainers sp v).2)
            | .ret none => (.ret (), setContainersUp false (stopContainers sp v).2)
            ).2.lastActivity = w.lastActivity := by
        intro v hv
        have hf := (stopContainers_frame sp v).1
        split
        · exact hf.trans hv
        · exact hf.trans hv
        · exact hf.trans hv
      split_ifs
      all_goals first
        | exact hd2
        | exact hstop _ hd2

/-- A cycle whose discovery returns members and whose idle time does not exceed the sleep
timeout returns with `containersUp` equal to the answer of the all-running test. -/
theorem monitorCycle_reconcile {σ : Type} (sp : SleepProxy σ) (now : Int) (w : World σ)
    {members : List Container}
    (hdisc : (getProjectContainers sp w).1 = .ret (.ok members))
    (hT : minDuration ≤ sp.config.SleepTimeout)
    (hidle : now - w.lastActivity ≤ sp.config.SleepTimeout) :
    (monitorCycle sp now w).1 = .ret () ∧
    (monitorCycle sp now w).2.containersUp =
      (decide (members.length > 0) && members.all fun c => decide (c.State = str "running")) := by
  have hs : ¬ sp.config.SleepTimeout < since now w.lastActivity := since_not_gt hidle hT
  unfold monitorCycle
  simp only [hdisc, allRunningLoop_eq, areContainersUp, getLastActivity, setContainersUp,
    getProjectContainers_snd, emit]
  cases hu : w.containersUp <;>
    cases ha : (decide (members.length > 0) &&
      members.all fun c => decide (c.State = str "running")) <;>
    simp [hs]

/-! ## Further claims on the monitor cycle and the batch procedures -/

/-- C11 as stated fails: the cycle below begins with the tracked state Down, discovery
reports the one member `webBox`, which is running, and the last activity lies more than
the sleep timeout back.  The cycle marks the project up, enters `stopContainers`, which
stops the member, and ends with `containersUp = false`. -/
theorem monitorCycle_out_of_band_counterexample :
    (freshWorld false longAgo).containersUp = false ∧
    (getProjectContainers (shopProxy false [.ok [proxyBox, webBox], .ok [proxyBox, webBox]]
      [] []) (freshWorld false longAgo)).1 = .ret (.ok [webBox]) ∧
    webBox.State = str "running" ∧
    (monitorCycle (shopProxy false [.ok [proxyBox, webBox], .ok [proxyBox, webBox]] [] []) 0
      (freshWorld false longAgo)).2.containersUp = false ∧
    stopCalls (monitorCycle (shopProxy false [.ok [proxyBox, webBox], .ok [proxyBox, webBox]]
      [] []) 0 (freshWorld false longAgo)).2.trace = [(webBox.ID, some 10)] := by
  decide

/-- C11, amended: a monitor cycle that begins with the tracked state Down, whose discovery
reports at least one member with every member running, and in which `now - lastActivity`
is at most `SleepTimeout`, returns with `containersUp = true`. -/
theorem monitorCycle_out_of_band_up {σ : Type} (sp : SleepProxy σ) (now : Int) (w : World σ)
    (members : List Container)
    (hdown : w.containersUp = false)
    (hdisc : (getProjectContainers sp w).1 = .ret (.ok members))
    (hne : members ≠ [])
    (hall : ∀ c ∈ members, c.State = str "running")
    (hT : isDuration sp.config.SleepTimeout)
    (hidle : now - w.lastActivity ≤ sp.config.SleepTimeout) :
    (monitorCycle sp now w).1 = .ret () ∧
    (monitorCycle sp now w).2.containersUp = true ∧
    (monitorCycle sp now w).2.containersUp ≠ w.containersUp := by
  obtain ⟨h1, h2⟩ := monitorCycle_reconcile sp now w hdisc hT.1 hidle
  have hup : (monitorCycle sp now w).2.containersUp = true := by
    rw [h2]
    have hlen : 0 < members.length := List.length_pos.mpr hne
    simp only [gt_iff_lt, hlen, decide_True, Bool.true_and, List.all_eq_true,
      decide_eq_true_eq]
    exact hall
  refine ⟨h1, hup, ?_⟩
  rw [hup, hdown]
  simp

theorem monitorCycle_out_of_band_up_witness :
    (monitorCycle (shopProxy false [.ok [proxyBox, webBox]] [] []) (30 * second)
      (freshWorld false 0)).1 = .ret () ∧
    (monitorCycle (shopProxy false [.ok [proxyBox, webBox]] [] []) (30 * second)
      (freshWorld false 0)).2.containersUp = true ∧
    (monitorCycle (shopProxy false [.ok [proxyBox, webBox]] [] []) (30 * second)
      (freshWorld false 0)).2.containersUp ≠ (freshWorld false 0).containersUp :=
  monitorCycle_out_of_band_up (shopProxy false [.ok [proxyBox, webBox]] [] []) (30 * second)
    (freshWorld false 0) [webBox] (by decide) (by decide) (by decide) (by decide) (by decide)
    (by decide)

/-- C12 as stated fails for `stopContainers`: in allow-list mode with no container labelled
`"true"` discovery returns no member, and `stopContainers`, called with
`containersUp = true`, leaves `containersUp = false`. -/
theorem stopContainers_zero_members_counterexample :
    (getProjectContainers (shopProxy true [.ok unlabelledListing] [] [])
      (freshWorld true 0)).1 = .ret (.ok []) ∧
    (freshWorld true 0).containersUp = true ∧
    (stopContainers (shopProxy true [.ok unlabelledListing] [] [])
      (freshWorld true 0)).2.containersUp = false := by
  decide

/-- C12, amended: whenever discovery returns an empty member list, `startContainers` and
`stopContainers` each issue no start or stop call and return nil; `startContainers` leaves
`containersUp` and `lastActivity` unchanged, `stopContainers` leaves `lastActivity`
unchanged and sets `containersUp = false`. -/
theorem batch_over_zero_members {σ : Type} (sp : SleepProxy σ) (w : World σ)
    (hdisc : (getProjectContainers sp w).1 = .ret (.ok [])) :
    ((startContainers sp w).1 = .ret none ∧
      startCalls (startContainers sp w).2.trace = startCalls w.trace ∧
      stopCalls (startContainers sp w).2.trace = stopCalls w.trace ∧
      (startContainers sp w).2.containersUp = w.containersUp ∧
      (startContainers sp w).2.lastActivity = w.lastActivity) ∧
    ((stopContainers sp w).1 = .ret none ∧
      startCalls (stopContainers sp w).2.trace = startCalls w.trace ∧
      stopCalls (stopContainers sp w).2.trace = stopCalls w.trace ∧
      (stopContainers sp w).2.containersUp = false ∧
      (stopContainers sp w).2.lastActivity = w.lastActivity) := by
  constructor
  · obtain ⟨h1, h2⟩ := startContainers_run sp w hdisc (by simp)
    obtain ⟨f1, f2, _⟩ := startContainers_frame sp w
    refine ⟨h1, ?_, ?_, f1, f2⟩
    · rw [h2]; simp
    · rw [h2]; simp
  · obtain ⟨h1, hup, h2⟩ := stopContainers_run sp w hdisc (by simp)
    obtain ⟨f1, _⟩ := stopContainers_frame sp w
    refine ⟨h1, ?_, ?_, hup, f1⟩
    · rw [h2]; simp
    · rw [h2]; simp

theorem batch_over_zero_members_witness :
    (startContainers (shopProxy true [.ok unlabelledListing] [] []) (freshWorld true 0)).1
      = .ret none ∧
    (stopContainers (shopProxy true [.ok unlabelledListing] [] []) (freshWorld true 0)).1
      = .ret none :=
  have h := batch_over_zero_members (shopProxy true [.ok unlabelledListing] [] [])
    (freshWorld true 0) (by decide)
  ⟨h.1.1, h.2.1⟩

/-- C13 fails on the code: the list query succeeds in each of the three runs below, and
`getProjectContainers` ends in an index or slice out of range instead of returning a
member list.  Deny-list mode with a nameless container labelled `"false"` (the log call of
line 47 reads `c.Names[0]`), allow-list mode with a nameless container labelled `"true"`
(line 40), and a container id of three bytes against an own id of twelve (line 30 slices
`c.ID[:12]`). -/
theorem getProjectContainers_index_fault :
    (getProjectContainers (shopProxy false [.ok [webBox, namelessBox]] [] [])
      (freshWorld false 0)).1 = .fault ∧
    (getProjectContainers (shopProxy true [.ok [webBox, namelessTrueBox]] [] [])
      (freshWorld false 0)).1 = .fault ∧
    (getProjectContainers (shopProxy false [.ok [webBox, shortBox]] [] [])
      (freshWorld false 0)).1 = .fault := by
  decide

/-- C15: at the end of every monitor cycle whose discovery returns a member list and in
which `now - lastActivity` is at most `SleepTimeout`, `containersUp` equals
`memberCount > 0 and every member is running`, whatever the tracked state was before the
cycle; an empty member list yields Down, and a member that is not running yields Down. -/
theorem monitorCycle_reconciliation_invariant {σ : Type} (sp : SleepProxy σ) (now : Int)
    (w : World σ) (members : List Container)
    (hdisc : (getProjectContainers sp w).1 = .ret (.ok members))
    (hT : isDuration sp.config.SleepTimeout)
    (hidle : now - w.lastActivity ≤ sp.config.SleepTimeout) :
    (monitorCycle sp now w).1 = .ret () ∧
    ((monitorCycle sp now w).2.containersUp = true ↔
      0 < members.length ∧ ∀ c ∈ members, c.State = str "running") ∧
    (members = [] → (monitorCycle sp now w).2.containersUp = false) ∧
    (∀ c ∈ members, c.State ≠ str "running" →
      (monitorCycle sp now w).2.containersUp = false) := by
  obtain ⟨h1, h2⟩ := monitorCycle_reconcile sp now w hdisc hT.1 hidle
  have hiff : (monitorCycle sp now w).2.containersUp = true ↔
      0 < members.length ∧ ∀ c ∈ members, c.State = str "running" := by
    rw [h2]
    simp
  refine ⟨h1, hiff, ?_, ?_⟩
  · intro hnil
    cases hb : (monitorCycle sp now w).2.containersUp with
    | false => rfl
    | true =>
      have := (hiff.mp hb).1
      rw [hnil] at this
      simp at this
  · intro c hc hstate
    cases hb : (monitorCycle sp now w).2.containersUp with
    | false => rfl
    | true => exact absurd ((hiff.mp hb).2 c hc) hstate

theorem monitorCycle_reconciliation_invariant_witness :
    (monitorCycle (shopProxy false [.ok shopListing] [] []) (30 * second)
      (freshWorld true 0)).1 = .ret () ∧
    ((monitorCycle (shopProxy false [.ok shopListing] [] []) (30 * second)
        (freshWorld true 0)).2.containersUp = true ↔
      0 < [webBox, dbBox, mailBox].length ∧
        ∀ c ∈ [webBox, dbBox, mailBox], c.State = str "running") :=
  have h := monitorCycle_reconciliation_invariant (shopProxy false [.ok shopListing] [] [])
    (30 * second) (freshWorld true 0) [webBox, dbBox, mailBox] (by decide) (by decide)
    (by decide)
  ⟨h.1, h.2.1⟩

/-! ## Lemmas on `LoadConfig` and on repeated filtering -/

/-- `os.Getenv` answers `""` exactly for a variable that is unset or set to `""`. -/
theorem Getenv_eq_nil_iff (env : Env) (key : GoString) :
    Getenv env key = [] ↔ env.lookup key = none ∨ env.lookup key = some [] := by
  unfold Getenv
  cases h : env.lookup key with
  | none => simp
  | some v => simp

/-- The filter loop, run again on the members a returning run kept, keeps all of them. -/
theorem filterLoop_again (containerID : GoString) (allowListMode : Bool) :
    ∀ (l acc r : List Container), filterLoop containerID allowListMode l acc = .ret r →
      ∀ acc2 : List Container,
        filterLoop containerID allowListMode (l.filter (isMember containerID allowListMode)) acc2
          = .ret (acc2 ++ l.filter (isMember containerID allowListMode)) := by
  intro l
  induction l with
  | nil =>
    intro acc r _ acc2
    simp [filterLoop]
  | cons c rest ih =>
    intro acc r h acc2
    unfold filterLoop at h
    cases hp : isProxyContainer containerID c with
    | fault => simp [hp] at h
    | ret b =>
      have hb := isProxyContainer_ret hp
      cases b with
      | true =>
        simp only [hp] at h
        have hm : isMember containerID allowListMode c = false := by simp [isMember, ← hb]
        simp only [List.filter_cons, hm, Bool.false_eq_true, if_false]
        exact ih _ _ h acc2
      | false =>
        simp only [hp] at h
        cases allowListMode with
        | true =>
          by_cases hl : mapIndex c.Labels (str "sleep-proxy.enable") = str "true"
          · simp only [hl, if_true] at h
            cases hn : c.Names with
            | nil => simp [hn] at h
            | cons n ns =>
              simp only [hn] at h
              have hm : isMember containerID true c = true := by
                simp [isMember, ← hb, policyAdmits, enableLabel, hl]
              simp only [List.filter_cons, hm, if_true]
              rw [filterLoop]
              simp only [hp, hl, if_true, hn]
              rw [ih _ _ h (acc2 ++ [c])]
              simp
          · simp only [hl, if_true, if_false] at h
            have hm : isMember containerID true c = false := by
              simp [isMember, policyAdmits, enableLabel, hl]
            simp only [List.filter_cons, hm, Bool.false_eq_true, if_false]
            exact ih _ _ h acc2
        | false =>
          by_cases hl : mapIndex c.Labels (str "sleep-proxy.enable") = str "false"
          · simp only [hl, ne_eq, not_true_eq_false, if_false, Bool.false_eq_true] at h
            cases hn : c.Names with
            | nil => simp [hn] at h
            | cons n ns =>
              simp only [hn] at h
              have hm : isMember containerID false c = false := by
                simp [isMember, policyAdmits, enableLabel, hl]
              simp only [List.filter_cons, hm, Bool.false_eq_true, if_false]
              exact ih _ _ h acc2
          · simp only [hl, ne_eq, not_false_eq_true, if_true, if_false, Bool.false_eq_true] at h
            have hm : isMember containerID false c = true := by
              simp [isMember, ← hb, policyAdmits, enableLabel, hl]
            simp only [List.filter_cons, hm, if_true]
            rw [filterLoop]
            simp only [hp, hl, ne_eq, not_false_eq_true, if_true, Bool.false_eq_true, if_false]
            rw [ih _ _ h (acc2 ++ [c])]
            simp

/-! ## The claims on configuration, on the filter and on the frame -/

/-- C16 as stated fails: with `CHECK_INTERVAL=30` the loaded `Config.CheckInterval` is 30
seconds while the ticker of the monitor has a period of 10 seconds, and with nothing but
the required variables configured `Config.CheckInterval` is 5 seconds, not 10. -/
theorem monitor_period_counterexample :
    (LoadConfig tunedEnv = .ret (envConfig (30 * second)) ∧
      monitorTickerPeriod (configuredProxy (envConfig (30 * second))) = 10 * second ∧
      monitorTickerPeriod (configuredProxy (envConfig (30 * second)))
        ≠ (envConfig (30 * second)).CheckInterval) ∧
    (LoadConfig plainEnv = .ret (envConfig (5 * second)) ∧
      monitorTickerPeriod (configuredProxy (envConfig (5 * second)))
        ≠ (envConfig (5 * second)).CheckInterval) := by
  decide

/-- C16, amended: the period of the monitor's ticker is 10 seconds for every controller,
whatever its configuration holds; `Config.CheckInterval`, which `LoadConfig` loads from
`CHECK_INTERVAL`, is 5 seconds when that variable is unset or empty. -/
theorem monitor_period_is_ten_seconds {σ : Type} (sp : SleepProxy σ) :
    monitorTickerPeriod sp = 10 * second ∧
    ∀ (env : Env) (c : Config), LoadConfig env = .ret c →
      Getenv env (str "CHECK_INTERVAL") = [] → c.CheckInterval = 5 * second := by
  refine ⟨rfl, ?_⟩
  intro env c hload hunset
  unfold LoadConfig at hload
  simp only at hload
  split_ifs at hload
  simp only [Outcome.ret.injEq] at hload
  rw [← hload]
  simp only [getEnvInt, hunset, ne_eq, not_true_eq_false, if_false]
  decide

theorem monitor_period_is_ten_seconds_witness :
    monitorTickerPeriod (configuredProxy (envConfig (5 * second))) = 10 * second ∧
    (envConfig (5 * second)).CheckInterval = 5 * second :=
  have h := monitor_period_is_ten_seconds (configuredProxy (envConfig (5 * second)))
  ⟨h.1, h.2 plainEnv (envConfig (5 * second)) (by decide) (by decide)⟩

/-- C17: for every environment, `LoadConfig` panics if and only if `TARGET_SERVICE` or
`TARGET_PORT` is unset or empty; otherwise it returns a `Config` whose `TargetService` and
`TargetPort` are exactly the values of those two variables. -/
theorem LoadConfig_fatal_iff_required_missing (env : Env) :
    (LoadConfig env = .fault ↔
      (env.lookup (str "TARGET_SERVICE") = none ∨ env.lookup (str "TARGET_SERVICE") = some []) ∨
      (env.lookup (str "TARGET_PORT") = none ∨ env.lookup (str "TARGET_PORT") = some [])) ∧
    ∀ targetService targetPort : GoString,
      env.lookup (str "TARGET_SERVICE") = some targetService → targetService ≠ [] →
      env.lookup (str "TARGET_PORT") = some targetPort → targetPort ≠ [] →
      ∃ c : Config, LoadConfig env = .ret c ∧
        c.TargetService = targetService ∧ c.TargetPort = targetPort := by
  constructor
  · rw [← Getenv_eq_nil_iff, ← Getenv_eq_nil_iff]
    unfold LoadConfig
    simp only
    by_cases hs : Getenv env (str "TARGET_SERVICE") = []
    · simp [hs]
    · by_cases hp : Getenv env (str "TARGET_PORT") = []
      · simp [hs, hp]
      · simp [hs, hp]
  · intro targetService targetPort hs hsne hp hpne
    have hgs : Getenv env (str "TARGET_SERVICE") = targetService := by
      unfold Getenv; rw [hs]
    have hgp : Getenv env (str "TARGET_PORT") = targetPort := by
      unfold Getenv; rw [hp]
    unfold LoadConfig
    simp only [hgs, hgp, hsne, hpne, if_false]
    exact ⟨_, rfl, rfl, rfl⟩

theorem LoadConfig_fatal_iff_required_missing_witness :
    ∃ c : Config, LoadConfig plainEnv = .ret c ∧
      c.TargetService = str "web" ∧ c.TargetPort = str "80" :=
  (LoadConfig_fatal_iff_required_missing plainEnv).2 (str "web") (str "80")
    (by decide) (by decide) (by decide) (by decide)

/-- C18: for every successful engine listing, the member list `getProjectContainers`
returns is exactly the listing filtered by `isMember` (not the controller itself, and
admitted by the mode's label policy): it is a sublist of the listing, it contains the
containers of the listing that satisfy the predicate and no other, its elements are
containers of the listing unchanged, and discovery over a listing equal to its own output,
with the same own id and mode, returns that output again. -/
theorem getProjectContainers_is_filter {σ : Type} (sp : SleepProxy σ) (w : World σ)
    (listing members : List Container)
    (hlist : (sp.dockerClient.ContainerList (projectFilter sp.projectName) w.engine).1
      = .ok listing)
    (hrun : (getProjectContainers sp w).1 = .ret (.ok members)) :
    members = listing.filter (isMember sp.containerID sp.config.AllowListMode) ∧
    members.Sublist listing ∧
    (∀ c : Container, c ∈ members ↔
      c ∈ listing ∧ isMember sp.containerID sp.config.AllowListMode c = true) ∧
    members.filter (isMember sp.containerID sp.config.AllowListMode) = members ∧
    ∀ (sp2 : SleepProxy σ) (w2 : World σ),
      sp2.containerID = sp.containerID →
      sp2.config.AllowListMode = sp.config.AllowListMode →
      (sp2.dockerClient.ContainerList (projectFilter sp2.projectName) w2.engine).1
        = .ok members →
      (getProjectContainers sp2 w2).1 = .ret (.ok members) := by
  have hm := getProjectContainers_ok sp w hlist hrun
  have hloop : ∃ r, filterLoop sp.containerID sp.config.AllowListMode listing [] = .ret r := by
    unfold getProjectContainers at hrun
    simp only [hlist] at hrun
    cases hf : filterLoop sp.containerID sp.config.AllowListMode listing [] with
    | fault => simp [hf] at hrun
    | ret r => exact ⟨r, rfl⟩
  obtain ⟨r, hr⟩ := hloop
  refine ⟨hm, ?_, ?_, ?_, ?_⟩
  · rw [hm]; exact List.filter_sublist listing
  · intro c
    rw [hm, List.mem_filter]
  · rw [hm, List.filter_filter]
    simp
  · intro sp2 w2 hid hmode hlist2
    have hagain := filterLoop_again _ _ _ _ _ hr []
    rw [← hm] at hagain
    unfold getProjectContainers
    simp only [hlist2, hid, hmode, hagain, List.nil_append]

theorem getProjectContainers_is_filter_witness :
    [webBox, dbBox, mailBox] = shopListing.filter
      (isMember (shopProxy false [.ok shopListing] [] []).containerID
        (shopProxy false [.ok shopListing] [] []).config.AllowListMode) ∧
    [webBox, dbBox, mailBox].Sublist shopListing :=
  have h := getProjectContainers_is_filter (shopProxy false [.ok shopListing] [] [])
    (freshWorld false 0) shopListing [webBox, dbBox, mailBox] (by decide) (by decide)
  ⟨h.1, h.2.1⟩

/-- C19: on every run, whatever the engine answers, `getProjectContainers`,
`startContainers`, `stopContainers` and a monitor cycle leave `lastActivity` as it was,
and `getProjectContainers` and `startContainers` leave `containersUp` as it was too. -/
theorem tracked_state_frame {σ : Type} (sp : SleepProxy σ) (now : Int) (w : World σ) :
    (getProjectContainers sp w).2.lastActivity = w.lastActivity ∧
    (startContainers sp w).2.lastActivity = w.lastActivity ∧
    (stopContainers sp w).2.lastActivity = w.lastActivity ∧
    (monitorCycle sp now w).2.lastActivity = w.lastActivity ∧
    (getProjectContainers sp w).2.containersUp = w.containersUp ∧
    (startContainers sp w).2.containersUp = w.containersUp := by
  refine ⟨?_, (startContainers_frame sp w).2.1, (stopContainers_frame sp w).1,
    monitorCycle_lastActivity sp now w, ?_, (startContainers_frame sp w).1⟩
  · rw [getProjectContainers_snd]; rfl
  · rw [getProjectContainers_snd]; rfl

/-! ## The batch procedures on a member without a name -/

/-- C3 fails on the code: in deny-list mode discovery returns the three members `dbBox`,
`namelessStoppedBox` and `mailBox`, none of them running.  `startContainers` starts
`dbBox`, then reads `c.Names[0]` of the nameless member at `docker.go:74` and ends in an
index out of range: `mailBox` is never started, so the start calls are not the members
that are not running. -/
theorem startContainers_nameless_member_fault :
    (getProjectContainers
      (shopProxy false [.ok [proxyBox, dbBox, namelessStoppedBox, mailBox]] [] [])
      (freshWorld false 0)).1 = .ret (.ok [dbBox, namelessStoppedBox, mailBox]) ∧
    (startContainers
      (shopProxy false [.ok [proxyBox, dbBox, namelessStoppedBox, mailBox]] [] [])
      (freshWorld false 0)).1 = .fault ∧
    startCalls (startContainers
      (shopProxy false [.ok [proxyBox, dbBox, namelessStoppedBox, mailBox]] [] [])
      (freshWorld false 0)).2.trace = [dbBox.ID] ∧
    ([dbBox, namelessStoppedBox, mailBox].filter
        fun c => decide (c.State ≠ str "running")).map (fun c => c.ID)
      = [dbBox.ID, namelessStoppedBox.ID, mailBox.ID] := by
  decide

/-- C4 fails on the code: in deny-list mode discovery returns the three running members
`webBox`, `namelessRunningBox` and `apiBox`.  `stopContainers` stops `webBox`, then reads
`c.Names[0]` of the nameless member at `docker.go:101` and ends in an index out of range:
`apiBox` is never stopped, so the stop calls are not the running members. -/
theorem stopContainers_nameless_member_fault :
    (getProjectContainers
      (shopProxy false [.ok [proxyBox, webBox, namelessRunningBox, apiBox]] [] [])
      (freshWorld true 0)).1 = .ret (.ok [webBox, namelessRunningBox, apiBox]) ∧
    (stopContainers
      (shopProxy false [.ok [proxyBox, webBox, namelessRunningBox, apiBox]] [] [])
      (freshWorld true 0)).1 = .fault ∧
    stopCalls (stopContainers
      (shopProxy false [.ok [proxyBox, webBox, namelessRunningBox, apiBox]] [] [])
      (freshWorld true 0)).2.trace = [(webBox.ID, some 10)] ∧
    ([webBox, namelessRunningBox, apiBox].filter
        fun c => decide (c.State = str "running")).map (fun c => (c.ID, (some 10 : Option Int)))
      = [(webBox.ID, some 10), (namelessRunningBox.ID, some 10), (apiBox.ID, some 10)] := by
  decide

/-- C5 fails on the code: the list query succeeds with the one container
`namelessStoppedBox`, which deny-list discovery returns as a member, and `startContainers`
ends in an index out of range at `docker.go:74` instead of returning nil; it returns no
error either. -/
theorem startContainers_listed_without_return :
    ((shopProxy false [.ok [namelessStoppedBox]] [] []).dockerClient.ContainerList
      (projectFilter (shopProxy false [.ok [namelessStoppedBox]] [] []).projectName)
      (freshWorld false 0).engine).1 = .ok [namelessStoppedBox] ∧
    (getProjectContainers (shopProxy false [.ok [namelessStoppedBox]] [] [])
      (freshWorld false 0)).1 = .ret (.ok [namelessStoppedBox]) ∧
    (startContainers (shopProxy false [.ok [namelessStoppedBox]] [] [])
      (freshWorld false 0)).1 = .fault ∧
    (startContainers (shopProxy false [.ok [namelessStoppedBox]] [] [])
      (freshWorld false 0)).1 ≠ .ret none := by
  decide

/-- C6 fails on the code: the discovery of `stopContainers` returns the members `webBox`
and `namelessRunningBox`.  `stopContainers` stops `webBox`, then ends in an index out of
range at `docker.go:101`, before line 114: it does not return nil and `containersUp` is
still `true`. -/
theorem stopContainers_nameless_member_stays_up :
    (getProjectContainers (shopProxy false [.ok [proxyBox, webBox, namelessRunningBox]] [] [])
      (freshWorld true 0)).1 = .ret (.ok [webBox, namelessRunningBox]) ∧
    (stopContainers (shopProxy false [.ok [proxyBox, webBox, namelessRunningBox]] [] [])
      (freshWorld true 0)).1 = .fault ∧
    (stopContainers (shopProxy false [.ok [proxyBox, webBox, namelessRunningBox]] [] [])
      (freshWorld true 0)).2.containersUp = true ∧
    stopCalls (stopContainers
      (shopProxy false [.ok [proxyBox, webBox, namelessRunningBox]] [] [])
      (freshWorld true 0)).2.trace = [(webBox.ID, some 10)] := by
  decide

end DockerSleepProxy
